import Mathlib

/-!
# Easy-Gin: the five tutorial programs, embedded

Each program of the repository is one `main` that wires a single route (or a
single validator call) to the gin framework.  The handlers are translated
statement by statement; the framework calls they make (`c.String`, `c.JSON`,
`c.Redirect`, `c.Set`/`c.Get`, `c.Next`, the `Logger` and `Recovery`
middleware installed by `gin.Default`) are translated from gin's own source,
to the extent the handlers exercise them.

State is threaded explicitly through a `Context` record.  What the outside
world decides (the clock, whether a write to disk fails, how the multipart
body parsed) is carried by `Env` and `Request`.
-/

namespace EasyGin

/-! ## Data model -/

/-- Value of Go type `any` as stored in the context keys and rendered as JSON. -/
inductive Value
  | null
  | str (s : String)
deriving DecidableEq, Repr

/-- A `*multipart.FileHeader`: the original filename and the bytes of the part. -/
structure FileHeader where
  Filename : String
  content : List UInt8
deriving DecidableEq, Repr

/-- A `*multipart.Form`, restricted to its `File` map. -/
structure Form where
  File : List (String × List FileHeader)
deriving DecidableEq, Repr

/-- One operand of `fmt.Println`. -/
inductive Operand
  | str (s : String)
  | int (n : Int)
  | duration (d : Int)
  | any (v : Value)
deriving DecidableEq, Repr

/-- Observable steps of one request, in the order they happen.  `enter i` and
`leave i` mark the moment gin's `Next` loop calls `handlers[i]` and the moment
that call returns; the others are calls the handlers and middleware make. -/
inductive Event
  | enter (i : Nat)
  | leave (i : Nat)
  | timeNow (t : Int)
  | timeSince (d : Int)
  | println (ops : List Operand)
  | ctxSet (key : String) (v : Value)
  | ctxGet (key : String) (v : Value) (found : Bool)
  | statusRead (status : Nat)
  | render (code : Int) (body : String)
  | redirect (code : Nat) (location : String)
  | multipartForm
  | formFile (name : String)
  | save (file : FileHeader) (dst : String) (err : Option String)
  | recovered (msg : String)
  | ginLog (status : Nat) (method path : String)
deriving DecidableEq, Repr

/-- Fields of gin's `responseWriter` plus what has gone out on the wire. -/
structure ResponseWriter where
  status : Nat
  written : Bool
  header : List (String × String)
  body : String
deriving DecidableEq, Repr

/-- The inbound request.  `MultipartForm` and `parseErr` are what
`Request.ParseMultipartForm` leaves in `Request.MultipartForm` and returns. -/
structure Request where
  Method : String
  Path : String
  RawQuery : String
  MultipartForm : Option Form
  parseErr : Option String
deriving DecidableEq, Repr

/-- A failed `SaveUploadedFile`: the error's message, and what the call left at
the destination (`none` when it did not get as far as creating the file). -/
structure SaveFailure where
  msg : String
  left : Option (List UInt8)
deriving DecidableEq, Repr

/-- What the environment decides: successive clock readings, whether opening
an uploaded part fails, and whether the n-th call of `SaveUploadedFile`, for a
given destination, fails. -/
structure Env where
  clock : Nat → Int
  openErr : FileHeader → Option String
  saveErr : Nat → String → Option SaveFailure

/-- The part of `gin.Context` the programs touch, together with the process
state around it (standard output and calls are in `trace`, the disk in `fs`). -/
structure Context where
  index : Int
  Keys : List (String × Value)
  Writer : ResponseWriter
  trace : List Event
  clockReads : Nat
  saveCalls : Nat
  fs : List (String × List UInt8)
deriving DecidableEq, Repr

/-- How a handler invocation ends. -/
inductive Result
  | ok (c : Context)
  | panic (msg : String) (c : Context)
  | outOfFuel
deriving DecidableEq, Repr

/-- A `gin.HandlerFunc`; the first argument is what `c.Next()` does when the
handler calls it. -/
abbrev HandlerFunc := (Context → Result) → Context → Result

/-! ## gin: response writer and rendering -/

def defaultStatus : Nat := 200

def abortIndex : Int := 63

def Context.log (c : Context) (e : Event) : Context :=
  { c with trace := c.trace ++ [e] }

/-- `responseWriter.WriteHeader`: a status already on the wire is kept. -/
def ResponseWriter.WriteHeader (w : ResponseWriter) (code : Int) : ResponseWriter :=
  if 0 < code ∧ (w.status : Int) ≠ code then
    if w.written then w else { w with status := code.toNat }
  else w

/-- `responseWriter.WriteHeaderNow`. -/
def ResponseWriter.WriteHeaderNow (w : ResponseWriter) : ResponseWriter :=
  if w.written then w else { w with written := true }

/-- `responseWriter.Write`. -/
def ResponseWriter.Write (w : ResponseWriter) (data : String) : ResponseWriter :=
  let w1 := w.WriteHeaderNow
  { w1 with body := w1.body ++ data }

def headerGet (h : List (String × String)) (key : String) : Option String :=
  (h.find? (fun kv => kv.1 == key)).map Prod.snd

def headerSet (h : List (String × String)) (key value : String) : List (String × String) :=
  (key, value) :: h.filter (fun kv => kv.1 != key)

/-- `render.writeContentType`: only sets the header when it is absent. -/
def writeContentType (w : ResponseWriter) (value : String) : ResponseWriter :=
  match headerGet w.header "Content-Type" with
  | some _ => w
  | none => { w with header := headerSet w.header "Content-Type" value }

def bodyAllowedForStatus (status : Int) : Bool :=
  if 100 ≤ status ∧ status ≤ 199 then false
  else if status = 204 then false
  else if status = 304 then false
  else true

/-- `Context.Render` for a renderer that sets `contentType` and writes `body`
(`render.String` without format operands, `render.JSON`). -/
def Context.Render (c : Context) (code : Int) (contentType body : String) : Context :=
  let c1 := (c.log (.render code body))
  let w := c1.Writer.WriteHeader code
  if bodyAllowedForStatus code then
    { c1 with Writer := (writeContentType w contentType).Write body }
  else
    { c1 with Writer := (writeContentType w contentType).WriteHeaderNow }

/-- The call `c.String(code, format)` with no operands: `format` is written as is. -/
def Context.RenderString (c : Context) (code : Int) (format : String) : Context :=
  c.Render code "text/plain; charset=utf-8" format

/-- `http.StatusText`, for the codes the programs use. -/
def StatusText (code : Nat) : String :=
  if code = 200 then "OK"
  else if code = 301 then "Moved Permanently"
  else if code = 400 then "Bad Request"
  else if code = 500 then "Internal Server Error"
  else ""

/-- `http.Redirect` for a target that is absolute, ASCII and free of HTML
metacharacters: `url.Parse` finds a scheme, so the target is not rewritten, and
both escapers leave it alone. -/
def httpRedirect (w : ResponseWriter) (method url : String) (code : Nat) : ResponseWriter :=
  let hadCT := (headerGet w.header "Content-Type").isSome
  let h1 := headerSet w.header "Location" url
  let h2 := if !hadCT && (method == "GET" || method == "HEAD")
            then headerSet h1 "Content-Type" "text/html; charset=utf-8" else h1
  let w1 := ({ w with header := h2 } : ResponseWriter).WriteHeader code
  if !hadCT && method == "GET" then
    w1.Write ("<a href=\"" ++ url ++ "\">" ++ StatusText code ++ "</a>.\n\n")
  else w1

/-- `c.Redirect(code, location)`: `c.Render(-1, render.Redirect ...)`. -/
def Context.Redirect (c : Context) (req : Request) (code : Nat) (location : String) : Result :=
  let c1 := c.log (.redirect code location)
  let w := c1.Writer.WriteHeader (-1)
  if (code < 300 ∨ 308 < code) ∧ code ≠ 201 then
    .panic ("Cannot redirect with status code " ++ toString code) { c1 with Writer := w }
  else
    .ok { c1 with Writer := httpRedirect w req.Method location code }

/-! ## gin: the handler chain -/

/-- The loop of `Context.Next`: `for c.index < len(handlers)`, run
`handlers[c.index]`, then `c.index++`.  A handler that calls `c.Next()` gets
the same loop, started one index further. -/
def nextLoop (hs : List HandlerFunc) : Nat → Context → Result
  | 0, _ => .outOfFuel
  | fuel + 1, c =>
    if c.index < hs.length then
      match hs.get? c.index.toNat with
      | none => .panic "index out of range" c
      | some h =>
        match h (fun c2 => nextLoop hs fuel { c2 with index := c2.index + 1 })
            (c.log (.enter c.index.toNat)) with
        | .ok c1 => nextLoop hs fuel { (c1.log (.leave c.index.toNat)) with index := c1.index + 1 }
        | r => r
    else .ok c

/-- `Context.Next`. -/
def Next (hs : List HandlerFunc) (fuel : Nat) (c : Context) : Result :=
  nextLoop hs fuel { c with index := c.index + 1 }

/-- `time.Now()`: the next reading of the clock. -/
def timeNow (env : Env) (c : Context) : Int × Context :=
  (env.clock c.clockReads,
   { c with clockReads := c.clockReads + 1,
            trace := c.trace ++ [.timeNow (env.clock c.clockReads)] })

/-- `gin.Logger()`: time the rest of the chain, then print one access line. -/
def Logger (env : Env) (req : Request) : HandlerFunc := fun next c =>
  let (_, c1) := timeNow env c
  match next c1 with
  | .ok c2 =>
    let (_, c3) := timeNow env c2
    .ok (c3.log (.ginLog c3.Writer.status req.Method req.Path))
  | r => r

/-- `Context.AbortWithStatus`. -/
def Context.AbortWithStatus (c : Context) (code : Int) : Context :=
  { c with Writer := (c.Writer.WriteHeader code).WriteHeaderNow, index := abortIndex }

/-- `gin.Recovery()`: a panic further down the chain is caught and answered
with `AbortWithStatus(500)`. -/
def Recovery : HandlerFunc := fun next c =>
  match next c with
  | .panic msg c1 => .ok ((c1.log (.recovered msg)).AbortWithStatus 500)
  | r => r

/-- A context as `Engine.ServeHTTP` hands it to the chain: `reset()` has set
`index` to -1, cleared the keys and reset the writer. -/
def freshContext (fs : List (String × List UInt8)) : Context :=
  { index := -1, Keys := [], Writer := ⟨defaultStatus, false, [], ""⟩,
    trace := [], clockReads := 0, saveCalls := 0, fs := fs }

/-- `Engine.handleHTTPRequest` for a request whose route matched `hs`: run the
chain, then flush the header. -/
def handle (hs : List HandlerFunc) (fuel : Nat) (fs : List (String × List UInt8)) : Result :=
  match Next hs fuel (freshContext fs) with
  | .ok c => .ok { c with Writer := c.Writer.WriteHeaderNow }
  | r => r

/-! ## gin_rendering_04/Redirect_03 -/

namespace Redirect

/-- The handler registered for `GET /index`. -/
def indexHandler (req : Request) : HandlerFunc := fun _ c =>
  c.Redirect req 301 "http://www.5lmh.com"

/-- The chain gin builds for `GET /index`: what `gin.Default()` installs, then
the route handler. -/
def chain (env : Env) (req : Request) : List HandlerFunc :=
  [Logger env req, Recovery, indexHandler req]

/-- Serving one request; `none` when the router does not select the handler. -/
def serve (env : Env) (req : Request) (fuel : Nat) (fs : List (String × List UInt8)) : Option Result :=
  if req.Method = "GET" ∧ req.Path = "/index" then some (handle (chain env req) fuel fs) else none

end Redirect

/-! ## gin_middleware_05/Global_middleware_01 -/

/-- `c.Set(key, value)`: `c.Keys[key] = value`. -/
def Context.Set (c : Context) (key : String) (v : Value) : Context :=
  { c with Keys := (key, v) :: c.Keys.filter (fun kv => kv.1 != key),
           trace := c.trace ++ [.ctxSet key v] }

/-- `c.Get(key)`: the stored value and whether the key exists; `nil` when absent. -/
def Context.Get (c : Context) (key : String) : Value × Bool × Context :=
  match c.Keys.find? (fun kv => kv.1 == key) with
  | some kv => (kv.2, true, c.log (.ctxGet key kv.2 true))
  | none => (.null, false, c.log (.ctxGet key .null false))

/-- `c.Writer.Status()`. -/
def Context.Status (c : Context) : Nat × Context :=
  (c.Writer.status, c.log (.statusRead c.Writer.status))

/-- `time.Since(t)`: a fresh clock reading minus `t`. -/
def timeSince (env : Env) (t : Int) (c : Context) : Int × Context :=
  (env.clock c.clockReads - t,
   { c with clockReads := c.clockReads + 1,
            trace := c.trace ++ [.timeSince (env.clock c.clockReads - t)] })

def hex4 (n : Nat) : List Char :=
  let ds := Nat.toDigits 16 n
  List.replicate (4 - ds.length) '0' ++ ds

/-- One character of a JSON string as `encoding/json` writes it with HTML
escaping on (what `json.Marshal` does). -/
def jsonEscapeChar (ch : Char) : List Char :=
  if ch = '"' then ['\\', '"']
  else if ch = '\\' then ['\\', '\\']
  else if ch = '\n' then ['\\', 'n']
  else if ch = '\r' then ['\\', 'r']
  else if ch = '\t' then ['\\', 't']
  else if ch.toNat < 32 ∨ ch = '<' ∨ ch = '>' ∨ ch = '&' ∨ ch.toNat = 8232 ∨ ch.toNat = 8233 then
    ['\\', 'u'] ++ hex4 ch.toNat
  else [ch]

/-- `json.Marshal` of a value of type `any` holding nil or a string. -/
def jsonMarshal : Value → String
  | .null => "null"
  | .str s => String.mk (['"'] ++ s.data.flatMap jsonEscapeChar ++ ['"'])

/-- `c.JSON(code, gin.H{key: v})` for a one-entry map. -/
def Context.JSON (c : Context) (code : Int) (key : String) (v : Value) : Context :=
  c.Render code "application/json; charset=utf-8"
    ("\x7b" ++ jsonMarshal (.str key) ++ ":" ++ jsonMarshal v ++ "\x7d")

namespace Middleware

/-- The handler `MiddleWare()` returns.  It never calls `c.Next()`. -/
def MiddleWare (env : Env) : HandlerFunc := fun _ c =>
  let (t, c1) := timeNow env c
  let c2 := c1.log (.println [.str "中间件开始执行了!"])
  let c3 := c2.Set "request" (.str "中间件")
  let (status, c4) := c3.Status
  let c5 := c4.log (.println [.str "中间件执行完毕", .int status])
  let (t2, c6) := timeSince env t c5
  .ok (c6.log (.println [.str "time:", .duration t2]))

/-- The handler registered for `GET /ce`. -/
def ceHandler : HandlerFunc := fun _ c =>
  let (req, exists_, c1) := c.Get "request"
  let c2 := if exists_ then c1.log (.println [.any req]) else c1
  .ok (c2.JSON 200 "request" req)

/-- The chain for `GET /ce`: `gin.Default()`, then `r.Use(MiddleWare())`, then
the route handler. -/
def chain (env : Env) (req : Request) : List HandlerFunc :=
  [Logger env req, Recovery, MiddleWare env, ceHandler]

/-- Position of `ceHandler` in `chain`. -/
def handlerIndex : Nat := 3

/-- Serving one request; `none` when the router does not select the handler. -/
def serve (env : Env) (req : Request) (fuel : Nat) (fs : List (String × List UInt8)) : Option Result :=
  if req.Method = "GET" ∧ req.Path = "/ce" then some (handle (chain env req) fuel fs) else none

/-- The first event satisfying `p` comes strictly before the first satisfying `q`. -/
def firstBefore (tr : List Event) (p q : Event → Bool) : Bool :=
  match tr.findIdx? p, tr.findIdx? q with
  | some i, some j => decide (i < j)
  | _, _ => false

def isStarted : Event → Bool
  | .println [.str s] => s == "中间件开始执行了!"
  | _ => false

def isFinished : Event → Bool
  | .println [.str s, .int _] => s == "中间件执行完毕"
  | _ => false

def isStatusRead : Event → Bool
  | .statusRead _ => true
  | _ => false

def isElapsed : Event → Bool
  | .timeSince _ => true
  | _ => false

def isHandlerEnter : Event → Bool
  | .enter i => i == handlerIndex
  | _ => false

def isHandlerLeave : Event → Bool
  | .leave i => i == handlerIndex
  | _ => false

/-- The ordering the specification asks of a trace: "started" before the
handler is entered; status read, "finished" and the elapsed-time measurement
after the handler has returned. -/
def Brackets (tr : List Event) : Prop :=
  firstBefore tr isStarted isHandlerEnter = true ∧
  firstBefore tr isHandlerLeave isStatusRead = true ∧
  firstBefore tr isHandlerLeave isFinished = true ∧
  firstBefore tr isHandlerLeave isElapsed = true

instance (tr : List Event) : Decidable (Brackets tr) := by
  unfold Brackets; infer_instance

/-- What the code does instead: everything the middleware does is over before
the handler is entered. -/
def RunsBeforeHandler (tr : List Event) : Prop :=
  firstBefore tr isStarted isStatusRead = true ∧
  firstBefore tr isStatusRead isFinished = true ∧
  firstBefore tr isFinished isElapsed = true ∧
  firstBefore tr isElapsed isHandlerEnter = true

end Middleware

/-! ## ginrouting02: the two upload programs -/

/-- Message of the run-time panic Go raises when a field of a nil pointer is read. -/
def nilDereference : String :=
  "runtime error: invalid memory address or nil pointer dereference"

/-- `http.ErrMissingFile`. -/
def ErrMissingFile : String := "http: no such file"

def fsWrite (fs : List (String × List UInt8)) (dst : String) (data : List UInt8) :
    List (String × List UInt8) :=
  (dst, data) :: fs.filter (fun kv => kv.1 != dst)

/-- What `c.FormFile(name)` returns: `(nil, err)` when the form did not parse,
when the field holds no file, or when the part cannot be opened; else the
first file header under `name`. -/
def formFile (env : Env) (req : Request) (name : String) : Option FileHeader × Option String :=
  match req.parseErr with
  | some e => (none, some e)
  | none =>
    match req.MultipartForm with
    | none => (none, some ErrMissingFile)
    | some form =>
      match (form.File.lookup name).getD [] with
      | [] => (none, some ErrMissingFile)
      | fh :: _ =>
        match env.openErr fh with
        | some e => (none, some e)
        | none => (some fh, none)

/-- The call `c.FormFile(name)`. -/
def Context.FormFile (c : Context) (env : Env) (req : Request) (name : String) :
    Option FileHeader × Option String × Context :=
  ((formFile env req name).1, (formFile env req name).2, c.log (.formFile name))

/-- `c.MultipartForm()`: `return c.Request.MultipartForm, err`. -/
def Context.MultipartForm (c : Context) (req : Request) :
    Option Form × Option String × Context :=
  (req.MultipartForm, req.parseErr, c.log .multipartForm)

/-- `c.SaveUploadedFile(file, dst)`: on success `dst` holds the bytes of the part. -/
def Context.SaveUploadedFile (c : Context) (env : Env) (file : FileHeader) (dst : String) :
    Option String × Context :=
  match env.saveErr c.saveCalls dst with
  | some f =>
    (some f.msg,
     { c with saveCalls := c.saveCalls + 1,
              trace := c.trace ++ [.save file dst (some f.msg)],
              fs := match f.left with
                    | some data => fsWrite c.fs dst data
                    | none => c.fs })
  | none =>
    (none,
     { c with saveCalls := c.saveCalls + 1,
              trace := c.trace ++ [.save file dst none],
              fs := fsWrite c.fs dst file.content })

/-- The `save` events of a trace, in order. -/
def saves (tr : List Event) : List (FileHeader × String × Option String) :=
  tr.filterMap fun e =>
    match e with
    | .save file dst err => some (file, dst, err)
    | _ => none

/-- The responses rendered in a trace, in order. -/
def renders (tr : List Event) : List (Int × String) :=
  tr.filterMap fun e =>
    match e with
    | .render code body => some (code, body)
    | _ => none

/-- The context a result carries, if any. -/
def Result.ctx : Result → Option Context
  | .ok c => some c
  | .panic _ c => some c
  | .outOfFuel => none

/-- The trace of a served request (empty when there is none). -/
def traceOf (r : Option Result) : List Event :=
  match r.bind Result.ctx with
  | some c => c.trace
  | none => []

/-- The disk after a served request. -/
def fsOf (r : Option Result) : List (String × List UInt8) :=
  match r.bind Result.ctx with
  | some c => c.fs
  | none => []

/-- The response writer after a served request. -/
def writerOf (r : Option Result) : Option ResponseWriter :=
  (r.bind Result.ctx).map (fun c => c.Writer)

/-- The context in which `gin.Default()` enters the route handler at position
2 of the chain: `Logger` has read the clock, `Recovery` has been entered. -/
def entryContext (env : Env) (fs : List (String × List UInt8)) : Context :=
  { index := 2, Keys := [], Writer := ⟨defaultStatus, false, [], ""⟩,
    trace := [.enter 0, .timeNow (env.clock 0), .enter 1, .enter 2],
    clockReads := 1, saveCalls := 0, fs := fs }

/-- What `Logger` and the chain add to the trace once the handler is done. -/
def epilogue (env : Env) (req : Request) (c : Context) : List Event :=
  [.leave 1, .timeNow (env.clock c.clockReads), .ginLog c.Writer.status req.Method req.Path,
   .leave 0]

namespace UploadIndividual

/-- Lines 16 and 17: `c.SaveUploadedFile(file, file.Filename)`, whose result
is dropped, then `c.String(200, file.Filename)`.  With a nil `file` the
operand `file.Filename` cannot be read and the statement panics. -/
def saveAndReply (env : Env) (file : Option FileHeader) (c : Context) : Result :=
  match file with
  | none => .panic nilDereference c
  | some f =>
    let (_, c3) := c.SaveUploadedFile env f f.Filename
    .ok (c3.RenderString 200 f.Filename)

/-- The handler registered for `POST /upload`.  The error branch has no
`return`: lines 16 and 17 run in either case. -/
def uploadHandler (env : Env) (req : Request) : HandlerFunc := fun _ c =>
  let (file, err, c1) := c.FormFile env req "file"
  let c2 := match err with
    | some _ => c1.RenderString 500 "上传图片出错"
    | none => c1
  saveAndReply env file c2

def chain (env : Env) (req : Request) : List HandlerFunc :=
  [Logger env req, Recovery, uploadHandler env req]

/-- Serving one request; `none` when the router does not select the handler. -/
def serve (env : Env) (req : Request) (fuel : Nat) (fs : List (String × List UInt8)) : Option Result :=
  if req.Method = "POST" ∧ req.Path = "/upload" then some (handle (chain env req) fuel fs) else none

end UploadIndividual

namespace UploadMultiple

/-- The `for _, file := range files` loop.  The flag tells whether the loop
left the handler through its `return`. -/
def saveLoop (env : Env) : List FileHeader → Context → Context × Bool
  | [], c => (c, false)
  | file :: rest, c =>
    match c.SaveUploadedFile env file ("./uploads/" ++ file.Filename) with
    | (some e, c1) => (c1.RenderString 400 ("save file err: " ++ e), true)
    | (none, c1) => saveLoop env rest c1

/-- The path a file of the batch is saved under. -/
def dstOf (file : FileHeader) : String := "./uploads/" ++ file.Filename

/-- The disk after each file of `files` has been written, in order. -/
def written (files : List FileHeader) (fs : List (String × List UInt8)) :
    List (String × List UInt8) :=
  files.foldl (fun acc f => fsWrite acc (dstOf f) f.content) fs

/-- The context after each file of `files` has been saved without error. -/
def savedAll (files : List FileHeader) (c : Context) : Context :=
  { c with saveCalls := c.saveCalls + files.length,
           trace := c.trace ++ files.map (fun f => Event.save f (dstOf f) none),
           fs := written files c.fs }

/-- The context after a save of `bad` that failed with `x`. -/
def saveFailed (bad : FileHeader) (x : SaveFailure) (c : Context) : Context :=
  { c with saveCalls := c.saveCalls + 1,
           trace := c.trace ++ [Event.save bad (dstOf bad) (some x.msg)],
           fs := match x.left with
                 | some data => fsWrite c.fs (dstOf bad) data
                 | none => c.fs }

/-- Lines 19 to 27: read `form.File["files"]` (a panic when `form` is nil),
save each file, report the count. -/
def saveAll (env : Env) (form : Option Form) (c : Context) : Result :=
  match form with
  | none => .panic nilDereference c
  | some f =>
    let files := (f.File.lookup "files").getD []
    match saveLoop env files c with
    | (c3, true) => .ok c3
    | (c3, false) => .ok (c3.RenderString 200 (toString files.length ++ " files uploaded"))

/-- The handler registered for `POST /upload`.  The error branch has no
`return`: lines 19 to 27 run in either case. -/
def uploadHandler (env : Env) (req : Request) : HandlerFunc := fun _ c =>
  let (form, err, c1) := c.MultipartForm req
  let c2 := match err with
    | some e => c1.RenderString 400 ("get form err: " ++ e)
    | none => c1
  saveAll env form c2

def chain (env : Env) (req : Request) : List HandlerFunc :=
  [Logger env req, Recovery, uploadHandler env req]

/-- Serving one request; `none` when the router does not select the handler. -/
def serve (env : Env) (req : Request) (fuel : Nat) (fs : List (String × List UInt8)) : Option Result :=
  if req.Method = "POST" ∧ req.Path = "/upload" then some (handle (chain env req) fuel fs) else none

end UploadMultiple

/-! ## ParameterVerification07/CustomVerificationv10_03/demo01 -/

namespace Validator

/-- A `validator.FieldError`, as far as `Error()` reads it. -/
structure FieldError where
  ns : String
  field : String
  tag : String
deriving DecidableEq, Repr

/-- `fieldError.Error()`. -/
def FieldError.Error (fe : FieldError) : String :=
  "Key: \x27" ++ fe.ns ++ "\x27 Error:Field validation for \x27" ++ fe.field ++
    "\x27 failed on the \x27" ++ fe.tag ++ "\x27 tag"

/-- Splitting a tag string at its commas. -/
def splitTags : List Char → List Char → List String
  | [], cur => [String.mk cur.reverse]
  | ch :: rest, cur =>
    if ch = ',' then String.mk cur.reverse :: splitTags rest [] else splitTags rest (ch :: cur)

/-- The two baked-in validations the program names.  `required` on a string is
"not the zero value"; `email` is a match of the library's e-mail pattern, taken
as a parameter. -/
def bakedIn (isEmail : String → Bool) (tag : String) : Option (String → Bool) :=
  if tag = "required" then some (fun s => s != "")
  else if tag = "email" then some isEmail
  else none

/-- The tag loop of `traverseField` on a string: the first validation that
fails records one error and ends the traversal. -/
def traverseField (isEmail : String → Bool) (field : String) :
    List String → Except String (List FieldError)
  | [] => .ok []
  | tag :: rest =>
    match bakedIn isEmail tag with
    | none => .error ("Undefined validation function \x27" ++ tag ++ "\x27 on field \x27\x27")
    | some fn => if fn field then traverseField isEmail field rest else .ok [⟨"", "", tag⟩]

/-- `validate.Var(field, tag)` on a string: nil, or the non-empty
`ValidationErrors`; `.error` is the panic on an unknown tag. -/
def Var (isEmail : String → Bool) (field tag : String) : Except String (Option (List FieldError)) :=
  if tag = "" ∨ tag = "-" then .ok none
  else
    match traverseField isEmail field (splitTags tag.data []) with
    | .error e => .error e
    | .ok [] => .ok none
    | .ok (e :: es) => .ok (some (e :: es))

/-- The `for _, e := range validationErrors` loop, appending to standard output. -/
def printErrors : List FieldError → String → String
  | [], out => out
  | e :: rest, out => printErrors rest (out ++ ("Error: " ++ e.Error ++ "\n"))

/-- Lines 15 to 22 of `main`: what is printed for a given `err`. -/
def report : Option (List FieldError) → String
  | some validationErrors => printErrors validationErrors ""
  | none => "Validation passed\n"

/-- Standard output of `main`; `none` when `Var` panics. -/
def main (isEmail : String → Bool) : Option String :=
  match Var isEmail "admin#admin.com" "required,email" with
  | .ok err => some (report err)
  | .error _ => none

end Validator

/-! ## Sample inputs -/

/-- An environment in which nothing fails and the clock ticks by ten. -/
def quietEnv : Env := ⟨fun n => 10 * n, fun _ => none, fun _ _ => none⟩

/-- An environment in which the second save fails without touching the disk. -/
def secondSaveFails : Env :=
  ⟨fun n => 10 * n, fun _ => none, fun n _ => if n = 1 then some ⟨"disk full", none⟩ else none⟩

/-- An environment in which every save fails without touching the disk. -/
def noSaveWorks : Env :=
  ⟨fun n => 10 * n, fun _ => none, fun _ _ => some ⟨"permission denied", none⟩⟩

def fileA : FileHeader := ⟨"a.txt", [104, 101, 108, 108, 111]⟩

def fileB : FileHeader := ⟨"b.txt", [1]⟩

def fileC : FileHeader := ⟨"c.txt", [2]⟩

def getIndex : Request := ⟨"GET", "/index", "x=1", none, none⟩

def getCe : Request := ⟨"GET", "/ce", "", none, none⟩

/-- A `POST /upload` whose body is not multipart. -/
def postNotMultipart : Request :=
  ⟨"POST", "/upload", "", none, some "request Content-Type isn\x27t multipart/form-data"⟩

/-- A `POST /upload` whose multipart body parsed although `ParseForm` had
already failed on the query string: a form and an error at once. -/
def postBadQuery : Request :=
  ⟨"POST", "/upload", "a=%zz", some ⟨[("files", [fileA])]⟩, some "invalid URL escape \"%zz\""⟩

/-- A `POST /upload` carrying one file under `file`. -/
def postOneFile : Request := ⟨"POST", "/upload", "", some ⟨[("file", [fileA])]⟩, none⟩

/-- A `POST /upload` carrying three files under `files`. -/
def postThreeFiles : Request :=
  ⟨"POST", "/upload", "", some ⟨[("files", [fileA, fileB, fileC])]⟩, none⟩

/-- A stand-in for the e-mail pattern in examples: accepts what holds an `@`. -/
def holdsAt (s : String) : Bool := s.data.contains '@'

/-! ## Theorems -/

/-- With enough fuel, the default chain around a handler that returns
normally ends normally, and adds only the epilogue to what the handler left. -/
theorem handle_ok (env : Env) (req : Request) (h : HandlerFunc) (n : Nat)
    (fs : List (String × List UInt8)) (c1 : Context)
    (hh : ∀ next, h next (entryContext env fs) = .ok c1) (hi : c1.index = 2) :
    ∃ c, handle [Logger env req, Recovery, h] (n + 4) fs = .ok c ∧
      c.Writer = c1.Writer.WriteHeaderNow ∧ c.fs = c1.fs ∧
      c.trace = c1.trace ++ .leave 2 :: epilogue env req c1 := by
  simp only [entryContext] at hh
  simp [handle, Next, nextLoop, freshContext, Logger, Recovery, timeNow, Context.log, hh, hi,
    epilogue]

/-- With enough fuel, a panic of the handler is caught by `Recovery`: the chain
still ends normally, after `AbortWithStatus(500)`. -/
theorem handle_panic (env : Env) (req : Request) (h : HandlerFunc) (n : Nat)
    (fs : List (String × List UInt8)) (msg : String) (c1 : Context)
    (hh : ∀ next, h next (entryContext env fs) = .panic msg c1) :
    ∃ c, handle [Logger env req, Recovery, h] (n + 4) fs = .ok c ∧
      c.Writer = ((c1.Writer.WriteHeader 500).WriteHeaderNow).WriteHeaderNow ∧ c.fs = c1.fs ∧
      c.trace = c1.trace ++ .recovered msg :: epilogue env req
        { c1 with Writer := (c1.Writer.WriteHeader 500).WriteHeaderNow } := by
  simp only [entryContext] at hh
  simp [handle, Next, nextLoop, freshContext, Logger, Recovery, timeNow, Context.log, hh,
    epilogue, Context.AbortWithStatus, abortIndex]

/-! ### Redirect -/

/-- C8: every `GET /index` request is answered, once the chain has fuel for its
four steps, with status 301 and `Location: http://www.5lmh.com`; the whole
response is one fixed value, whatever else the request carries. -/
theorem index_redirects (env : Env) (req : Request) (fuel : Nat)
    (fs : List (String × List UInt8))
    (hm : req.Method = "GET") (hp : req.Path = "/index") (hf : 4 ≤ fuel) :
    ∃ c, Redirect.serve env req fuel fs = some (.ok c) ∧
      c.Writer.status = 301 ∧ c.Writer.written = true ∧
      headerGet c.Writer.header "Location" = some "http://www.5lmh.com" ∧
      c.Writer = ⟨301, true,
        [("Content-Type", "text/html; charset=utf-8"), ("Location", "http://www.5lmh.com")],
        "<a href=\"http://www.5lmh.com\">Moved Permanently</a>.\n\n"⟩ := by
  obtain ⟨n, rfl⟩ := Nat.exists_eq_add_of_le' hf
  simp [Redirect.serve, hm, hp, handle, Next, Redirect.chain, nextLoop, freshContext, Logger,
    Recovery, timeNow, Context.log, Redirect.indexHandler, Context.Redirect, httpRedirect,
    ResponseWriter.WriteHeader, ResponseWriter.WriteHeaderNow, ResponseWriter.Write, headerGet,
    headerSet, defaultStatus, StatusText]

theorem index_redirects_witness :
    getIndex.Method = "GET" ∧ getIndex.Path = "/index" ∧ 4 ≤ 4 ∧
    ∃ c, Redirect.serve quietEnv getIndex 4 [] = some (.ok c) ∧
      c.Writer.status = 301 ∧ c.Writer.written = true ∧
      headerGet c.Writer.header "Location" = some "http://www.5lmh.com" ∧
      c.Writer = ⟨301, true,
        [("Content-Type", "text/html; charset=utf-8"), ("Location", "http://www.5lmh.com")],
        "<a href=\"http://www.5lmh.com\">Moved Permanently</a>.\n\n"⟩ :=
  ⟨rfl, rfl, le_refl 4, index_redirects quietEnv getIndex 4 [] rfl rfl (le_refl 4)⟩

/-! ### Logging middleware -/

/-- The trace of a `GET /ce` request, spelled out: `MiddleWare` (position 2) is
entered and left before the route handler (position 3) is entered. -/
theorem ce_trace (env : Env) (req : Request) (n : Nat) (fs : List (String × List UInt8))
    (hm : req.Method = "GET") (hp : req.Path = "/ce") :
    ∃ c, Middleware.serve env req (n + 5) fs = some (.ok c) ∧
      c.Writer = ⟨200, true, [("Content-Type", "application/json; charset=utf-8")],
        "\x7b\"request\":\"中间件\"\x7d"⟩ ∧
      c.trace =
        [.enter 0, .timeNow (env.clock 0), .enter 1, .enter 2,
         .timeNow (env.clock 1),
         .println [.str "中间件开始执行了!"],
         .ctxSet "request" (.str "中间件"),
         .statusRead 200,
         .println [.str "中间件执行完毕", .int 200],
         .timeSince (env.clock 2 - env.clock 1),
         .println [.str "time:", .duration (env.clock 2 - env.clock 1)],
         .leave 2, .enter 3,
         .ctxGet "request" (.str "中间件") true,
         .println [.any (.str "中间件")],
         .render 200 "\x7b\"request\":\"中间件\"\x7d",
         .leave 3, .leave 1, .timeNow (env.clock 3), .ginLog 200 req.Method req.Path,
         .leave 0] := by
  simp [Middleware.serve, hm, hp, handle, Next, Middleware.chain, nextLoop, freshContext,
    Logger, Recovery, timeNow, timeSince, Context.log, Middleware.MiddleWare,
    Middleware.ceHandler, Context.Set, Context.Get, Context.Status, Context.JSON,
    Context.Render, bodyAllowedForStatus, writeContentType, ResponseWriter.WriteHeader,
    ResponseWriter.WriteHeaderNow, ResponseWriter.Write, headerGet, headerSet, defaultStatus,
    jsonMarshal, jsonEscapeChar]

/-- C1, as stated, fails: on a `GET /ce` request the status read, the
"finished" line and the elapsed-time measurement do not come after the route
handler has returned, so the two lines do not bracket the handler. -/
theorem finished_not_after_handler :
    ¬ Middleware.Brackets (traceOf (Middleware.serve quietEnv getCe 5 [])) := by
  obtain ⟨c, hs, -, ht⟩ := ce_trace quietEnv getCe 0 [] rfl rfl
  have h : traceOf (Middleware.serve quietEnv getCe 5 []) = c.trace := by
    rw [show (5 : Nat) = 0 + 5 from rfl, hs]; rfl
  rw [h, ht]
  decide

/-- C1, amended: on every `GET /ce` request, given fuel for the five steps of
the chain, `MiddleWare` emits "started", reads the status (still the writer's
default 200, nothing being written yet), emits "finished" and measures the
elapsed time, in this order and all before the route handler is entered; the
handler then runs to completion.  The bracketing of the specification holds
for no such request. -/
theorem middleware_runs_before_handler (env : Env) (req : Request) (fuel : Nat)
    (fs : List (String × List UInt8))
    (hm : req.Method = "GET") (hp : req.Path = "/ce") (hf : 5 ≤ fuel) :
    ∃ c, Middleware.serve env req fuel fs = some (.ok c) ∧
      Middleware.RunsBeforeHandler c.trace ∧
      Middleware.firstBefore c.trace Middleware.isHandlerEnter Middleware.isHandlerLeave = true ∧
      Event.statusRead 200 ∈ c.trace ∧
      Event.println [.str "中间件执行完毕", .int 200] ∈ c.trace ∧
      ¬ Middleware.Brackets c.trace := by
  obtain ⟨n, rfl⟩ := Nat.exists_eq_add_of_le' hf
  obtain ⟨c, hs, -, ht⟩ := ce_trace env req n fs hm hp
  refine ⟨c, hs, ?_⟩
  rw [ht]
  refine ⟨⟨rfl, rfl, rfl, rfl⟩, rfl, by simp, by simp, ?_⟩
  intro h
  exact Bool.noConfusion (show false = true from h.2.1)

theorem middleware_runs_before_handler_witness :
    getCe.Method = "GET" ∧ getCe.Path = "/ce" ∧ 5 ≤ 5 ∧
    ∃ c, Middleware.serve quietEnv getCe 5 [] = some (.ok c) ∧
      Middleware.RunsBeforeHandler c.trace ∧
      Middleware.firstBefore c.trace Middleware.isHandlerEnter Middleware.isHandlerLeave = true ∧
      Event.statusRead 200 ∈ c.trace ∧
      Event.println [.str "中间件执行完毕", .int 200] ∈ c.trace ∧
      ¬ Middleware.Brackets c.trace :=
  ⟨rfl, rfl, le_refl 5, middleware_runs_before_handler quietEnv getCe 5 [] rfl rfl (le_refl 5)⟩

/-- C6: on every `GET /ce` request, given fuel for the five steps of the chain,
the handler's lookup of "request" finds the value "中间件" that `MiddleWare`
set (it is the only lookup made), and the response is status 200 with the JSON
body `\x7b"request":"中间件"\x7d`, which is not the `null` rendering. -/
theorem ce_returns_annotation (env : Env) (req : Request) (fuel : Nat)
    (fs : List (String × List UInt8))
    (hm : req.Method = "GET") (hp : req.Path = "/ce") (hf : 5 ≤ fuel) :
    ∃ c, Middleware.serve env req fuel fs = some (.ok c) ∧
      (∀ v found, Event.ctxGet "request" v found ∈ c.trace ↔
        (v = .str "中间件" ∧ found = true)) ∧
      c.Writer.status = 200 ∧ c.Writer.written = true ∧
      c.Writer.body = "\x7b\"request\":\"中间件\"\x7d" ∧
      headerGet c.Writer.header "Content-Type" = some "application/json; charset=utf-8" ∧
      c.Writer.body ≠ "\x7b\"request\":null\x7d" := by
  obtain ⟨n, rfl⟩ := Nat.exists_eq_add_of_le' hf
  obtain ⟨c, hs, hw, ht⟩ := ce_trace env req n fs hm hp
  refine ⟨c, hs, ?_, ?_⟩
  · intro v found
    rw [ht]
    simp
  · rw [hw]
    simp [headerGet]

theorem ce_returns_annotation_witness :
    getCe.Method = "GET" ∧ getCe.Path = "/ce" ∧ 5 ≤ 5 ∧
    ∃ c, Middleware.serve quietEnv getCe 5 [] = some (.ok c) ∧
      (∀ v found, Event.ctxGet "request" v found ∈ c.trace ↔
        (v = .str "中间件" ∧ found = true)) ∧
      c.Writer.status = 200 ∧ c.Writer.written = true ∧
      c.Writer.body = "\x7b\"request\":\"中间件\"\x7d" ∧
      headerGet c.Writer.header "Content-Type" = some "application/json; charset=utf-8" ∧
      c.Writer.body ≠ "\x7b\"request\":null\x7d" :=
  ⟨rfl, rfl, le_refl 5, ce_returns_annotation quietEnv getCe 5 [] rfl rfl (le_refl 5)⟩

/-! ### Single upload -/

/-- `c.FormFile` returns an error exactly when it returns no file. -/
theorem formFile_err (env : Env) (req : Request) (name e : String)
    (he : (formFile env req name).2 = some e) : (formFile env req name).1 = none := by
  unfold formFile at he ⊢
  split <;> try rfl
  split <;> try rfl
  split <;> try rfl
  split <;> try rfl
  simp_all

/-- C4, as stated, fails: on a request whose field `file` cannot be extracted,
no save is attempted.  The trace holds no call of `SaveUploadedFile`; what it
holds instead is the recovered nil-pointer panic. -/
theorem no_save_after_extract_failure :
    (formFile quietEnv postNotMultipart "file").2 =
      some "request Content-Type isn\x27t multipart/form-data" ∧
    saves (traceOf (UploadIndividual.serve quietEnv postNotMultipart 4 [])) = [] ∧
    Event.recovered nilDereference ∈
      traceOf (UploadIndividual.serve quietEnv postNotMultipart 4 []) := by
  refine ⟨rfl, rfl, ?_⟩
  decide

/-- C4, amended: whenever extracting field `file` fails, the handler writes
status 500 with the fixed body "上传图片出错" and does not stop there: it falls
through into the save statement of line 16 with the nil file reference.
Reading `file.Filename` there panics, so `SaveUploadedFile` is not called and
line 17 is not reached; `Recovery` catches the panic and the response stays
500 with the fixed body, the disk untouched.  Needs fuel for the four steps
of the chain. -/
theorem extract_failure_falls_through (env : Env) (req : Request) (fuel : Nat)
    (fs : List (String × List UInt8)) (e : String)
    (hm : req.Method = "POST") (hp : req.Path = "/upload") (hf : 4 ≤ fuel)
    (he : (formFile env req "file").2 = some e) :
    (∀ next c, UploadIndividual.uploadHandler env req next c =
      UploadIndividual.saveAndReply env none
        ((c.log (.formFile "file")).RenderString 500 "上传图片出错")) ∧
    ∃ c, UploadIndividual.serve env req fuel fs = some (.ok c) ∧
      c.Writer.status = 500 ∧ c.Writer.written = true ∧ c.Writer.body = "上传图片出错" ∧
      renders c.trace = [(500, "上传图片出错")] ∧
      Event.recovered nilDereference ∈ c.trace ∧
      saves c.trace = [] ∧ c.fs = fs := by
  have hfile := formFile_err env req "file" e he
  have hh : ∀ next c, UploadIndividual.uploadHandler env req next c =
      UploadIndividual.saveAndReply env none
        ((c.log (.formFile "file")).RenderString 500 "上传图片出错") := by
    intro next c
    simp [UploadIndividual.uploadHandler, Context.FormFile, he, hfile]
  refine ⟨hh, ?_⟩
  obtain ⟨n, rfl⟩ := Nat.exists_eq_add_of_le' hf
  obtain ⟨c, hs, hw, hfs, ht⟩ := handle_panic env req (UploadIndividual.uploadHandler env req) n fs
    nilDereference (((entryContext env fs).log (.formFile "file")).RenderString 500 "上传图片出错")
    (fun next => by rw [hh]; rfl)
  refine ⟨c, by simp [UploadIndividual.serve, hm, hp, UploadIndividual.chain, hs], ?_⟩
  simp [hw, hfs, ht, entryContext, Context.log, Context.RenderString, Context.Render,
    bodyAllowedForStatus, writeContentType, ResponseWriter.WriteHeader,
    ResponseWriter.WriteHeaderNow, ResponseWriter.Write, headerGet, headerSet, defaultStatus,
    renders, saves, epilogue]

theorem extract_failure_falls_through_witness :
    postNotMultipart.Method = "POST" ∧ postNotMultipart.Path = "/upload" ∧ 4 ≤ 4 ∧
    (formFile quietEnv postNotMultipart "file").2 =
      some "request Content-Type isn\x27t multipart/form-data" ∧
    ((∀ next c, UploadIndividual.uploadHandler quietEnv postNotMultipart next c =
      UploadIndividual.saveAndReply quietEnv none
        ((c.log (.formFile "file")).RenderString 500 "上传图片出错")) ∧
    ∃ c, UploadIndividual.serve quietEnv postNotMultipart 4 [] = some (.ok c) ∧
      c.Writer.status = 500 ∧ c.Writer.written = true ∧ c.Writer.body = "上传图片出错" ∧
      renders c.trace = [(500, "上传图片出错")] ∧
      Event.recovered nilDereference ∈ c.trace ∧
      saves c.trace = [] ∧ c.fs = []) :=
  ⟨rfl, rfl, le_refl 4, rfl,
   extract_failure_falls_through quietEnv postNotMultipart 4 [] _ rfl rfl (le_refl 4) rfl⟩

/-- What a `POST /upload` request with an extracted file leads to, whatever the
save does: one save call, one response, status 200 with the filename. -/
theorem upload_extracted (env : Env) (req : Request) (n : Nat)
    (fs : List (String × List UInt8)) (f : FileHeader)
    (hm : req.Method = "POST") (hp : req.Path = "/upload")
    (he : formFile env req "file" = (some f, none)) :
    ∃ c, UploadIndividual.serve env req (n + 4) fs = some (.ok c) ∧
      c.Writer = ⟨200, true, [("Content-Type", "text/plain; charset=utf-8")], f.Filename⟩ ∧
      renders c.trace = [(200, f.Filename)] ∧
      saves c.trace = [(f, f.Filename, (env.saveErr 0 f.Filename).map (fun x => x.msg))] ∧
      c.fs = (match env.saveErr 0 f.Filename with
        | none => fsWrite fs f.Filename f.content
        | some x => match x.left with
          | some data => fsWrite fs f.Filename data
          | none => fs) := by
  obtain ⟨c, hs, hw, hfs, ht⟩ := handle_ok env req (UploadIndividual.uploadHandler env req) n fs
    ((((entryContext env fs).log (.formFile "file")).SaveUploadedFile env f f.Filename).2.RenderString
      200 f.Filename)
    (fun next => by
      simp [UploadIndividual.uploadHandler, Context.FormFile, he,
        UploadIndividual.saveAndReply])
    (by
      cases hsv : env.saveErr 0 f.Filename <;>
        simp [Context.SaveUploadedFile, entryContext, Context.log, Context.RenderString,
          Context.Render, bodyAllowedForStatus, hsv])
  refine ⟨c, by simp [UploadIndividual.serve, hm, hp, UploadIndividual.chain, hs], ?_⟩
  cases hsv : env.saveErr 0 f.Filename <;>
    simp [hw, hfs, ht, Context.SaveUploadedFile, entryContext, Context.log, Context.RenderString,
      Context.Render, bodyAllowedForStatus, writeContentType, ResponseWriter.WriteHeader,
      ResponseWriter.WriteHeaderNow, ResponseWriter.Write, headerGet, headerSet, defaultStatus,
      renders, saves, epilogue, hsv]

/-- C5, as stated, fails: the field is extracted, the save fails, and the
response is 200 with the filename although nothing is persisted under it. -/
theorem extracted_but_not_persisted :
    formFile noSaveWorks postOneFile "file" = (some fileA, none) ∧
    (fsOf (UploadIndividual.serve noSaveWorks postOneFile 4 [])).lookup "a.txt" = none ∧
    (writerOf (UploadIndividual.serve noSaveWorks postOneFile 4 [])).map (fun w => (w.status, w.body))
      = some (200, "a.txt") := by
  obtain ⟨c, hs, hw, -, -, hfs⟩ := upload_extracted noSaveWorks postOneFile 0 [] fileA rfl rfl rfl
  have h4 : (4 : Nat) = 0 + 4 := rfl
  refine ⟨rfl, ?_, ?_⟩
  · rw [h4, hs]
    simp [fsOf, Result.ctx, hfs, noSaveWorks]
  · rw [h4, hs]
    simp [writerOf, Result.ctx, hw, fileA]

/-- C5, amended: for every request whose field `file` is extracted and whose
save succeeds, given fuel for the four steps of the chain, the file is saved
once, under its original filename and with its bytes unchanged, and the
response is status 200 with the filename as body. -/
theorem extracted_and_saved (env : Env) (req : Request) (fuel : Nat)
    (fs : List (String × List UInt8)) (f : FileHeader)
    (hm : req.Method = "POST") (hp : req.Path = "/upload") (hf : 4 ≤ fuel)
    (he : formFile env req "file" = (some f, none))
    (hsave : env.saveErr 0 f.Filename = none) :
    ∃ c, UploadIndividual.serve env req fuel fs = some (.ok c) ∧
      saves c.trace = [(f, f.Filename, none)] ∧
      c.fs.lookup f.Filename = some f.content ∧
      c.Writer.status = 200 ∧ c.Writer.written = true ∧ c.Writer.body = f.Filename ∧
      renders c.trace = [(200, f.Filename)] := by
  obtain ⟨n, rfl⟩ := Nat.exists_eq_add_of_le' hf
  obtain ⟨c, hs, hw, hr, hsv, hfs⟩ := upload_extracted env req n fs f hm hp he
  refine ⟨c, hs, ?_, ?_, ?_, ?_, ?_, hr⟩
  · simp [hsv, hsave]
  · simp [hfs, hsave, fsWrite, List.lookup]
  · simp [hw]
  · simp [hw]
  · simp [hw]

theorem extracted_and_saved_witness :
    postOneFile.Method = "POST" ∧ postOneFile.Path = "/upload" ∧ 4 ≤ 4 ∧
    formFile quietEnv postOneFile "file" = (some fileA, none) ∧
    quietEnv.saveErr 0 fileA.Filename = none ∧
    ∃ c, UploadIndividual.serve quietEnv postOneFile 4 [] = some (.ok c) ∧
      saves c.trace = [(fileA, fileA.Filename, none)] ∧
      c.fs.lookup fileA.Filename = some fileA.content ∧
      c.Writer.status = 200 ∧ c.Writer.written = true ∧ c.Writer.body = fileA.Filename ∧
      renders c.trace = [(200, fileA.Filename)] :=
  ⟨rfl, rfl, le_refl 4, rfl, rfl,
   extracted_and_saved quietEnv postOneFile 4 [] fileA rfl rfl (le_refl 4) rfl rfl⟩

/-- C10: for every request whose field `file` is extracted, given fuel for the
four steps of the chain, the only response is status 200 with the filename as
body, whether the save returned nil or an error: the one save call's result
appears in no response. -/
theorem save_error_discarded (env : Env) (req : Request) (fuel : Nat)
    (fs : List (String × List UInt8)) (f : FileHeader)
    (hm : req.Method = "POST") (hp : req.Path = "/upload") (hf : 4 ≤ fuel)
    (he : formFile env req "file" = (some f, none)) :
    ∃ c, UploadIndividual.serve env req fuel fs = some (.ok c) ∧
      saves c.trace = [(f, f.Filename, (env.saveErr 0 f.Filename).map (fun x => x.msg))] ∧
      c.Writer.status = 200 ∧ c.Writer.written = true ∧ c.Writer.body = f.Filename ∧
      renders c.trace = [(200, f.Filename)] := by
  obtain ⟨n, rfl⟩ := Nat.exists_eq_add_of_le' hf
  obtain ⟨c, hs, hw, hr, hsv, -⟩ := upload_extracted env req n fs f hm hp he
  exact ⟨c, hs, hsv, by simp [hw], by simp [hw], by simp [hw], hr⟩

theorem save_error_discarded_witness :
    postOneFile.Method = "POST" ∧ postOneFile.Path = "/upload" ∧ 4 ≤ 4 ∧
    formFile noSaveWorks postOneFile "file" = (some fileA, none) ∧
    ∃ c, UploadIndividual.serve noSaveWorks postOneFile 4 [] = some (.ok c) ∧
      saves c.trace = [(fileA, "a.txt", some "permission denied")] ∧
      c.Writer.status = 200 ∧ c.Writer.written = true ∧ c.Writer.body = "a.txt" ∧
      renders c.trace = [(200, "a.txt")] :=
  ⟨rfl, rfl, le_refl 4, rfl,
   save_error_discarded noSaveWorks postOneFile 4 [] fileA rfl rfl (le_refl 4) rfl⟩

/-! ### Multiple upload -/

/-- The save loop passes over a prefix of files whose saves all succeed. -/
theorem saveLoop_passes (env : Env) (pre rest : List FileHeader) (c : Context)
    (hok : ∀ i f, pre[i]? = some f → env.saveErr (c.saveCalls + i) (UploadMultiple.dstOf f) = none) :
    UploadMultiple.saveLoop env (pre ++ rest) c =
      UploadMultiple.saveLoop env rest (UploadMultiple.savedAll pre c) := by
  induction pre generalizing c with
  | nil => simp [UploadMultiple.savedAll, UploadMultiple.written]
  | cons f pre ih =>
    have h0 : env.saveErr c.saveCalls ("./uploads/" ++ f.Filename) = none := by
      simpa [UploadMultiple.dstOf] using hok 0 f (by simp)
    simp only [List.cons_append, UploadMultiple.saveLoop, Context.SaveUploadedFile, h0,
      List.append_eq]
    rw [ih]
    · congr 1
      simp [UploadMultiple.savedAll, UploadMultiple.written, UploadMultiple.dstOf, Nat.add_assoc,
        Nat.add_comm 1]
    · intro i g hg
      have := hok (i + 1) g (by simpa using hg)
      simpa [Nat.add_assoc, Nat.add_comm 1] using this

/-- The save events of a run of successful saves. -/
theorem saves_map_save (files : List FileHeader) :
    saves (files.map (fun f => Event.save f (UploadMultiple.dstOf f) none)) =
      files.map (fun f => (f, UploadMultiple.dstOf f, none)) := by
  induction files with
  | nil => rfl
  | cons f files ih => simpa [saves] using ih

/-- A run of saves renders nothing. -/
theorem renders_map_save (files : List FileHeader) :
    renders (files.map (fun f => Event.save f (UploadMultiple.dstOf f) none)) = [] := by
  induction files with
  | nil => rfl
  | cons f files ih => simp [renders]

theorem saves_append (a b : List Event) : saves (a ++ b) = saves a ++ saves b := by
  simp [saves]

theorem renders_append (a b : List Event) : renders (a ++ b) = renders a ++ renders b := by
  simp [renders]

theorem saves_cons (e : Event) (l : List Event) :
    saves (e :: l) =
      (match e with
        | .save file dst err => [(file, dst, err)]
        | _ => []) ++ saves l := by
  cases e <;> simp [saves]

theorem renders_cons (e : Event) (l : List Event) :
    renders (e :: l) =
      (match e with
        | .render code body => [(code, body)]
        | _ => []) ++ renders l := by
  cases e <;> simp [renders]

theorem saves_nil : saves [] = [] := rfl

theorem renders_nil : renders [] = [] := rfl

/-- C3: when the form parsed and every save succeeds, then, given fuel for the
four steps of the chain, each of the n files under `files` (n may be 0) is
saved exactly once, in sequence order, to "./uploads/" followed by its
filename, and the single response is status 200 with body "n files uploaded". -/
theorem all_saved_reports_count (env : Env) (req : Request) (fuel : Nat)
    (fs : List (String × List UInt8)) (form : Form) (files : List FileHeader)
    (hm : req.Method = "POST") (hp : req.Path = "/upload") (hf : 4 ≤ fuel)
    (hform : req.MultipartForm = some form) (herr : req.parseErr = none)
    (hfiles : (form.File.lookup "files").getD [] = files)
    (hok : ∀ i f, files[i]? = some f → env.saveErr i ("./uploads/" ++ f.Filename) = none) :
    ∃ c, UploadMultiple.serve env req fuel fs = some (.ok c) ∧
      saves c.trace = files.map (fun f => (f, "./uploads/" ++ f.Filename, none)) ∧
      renders c.trace = [(200, toString files.length ++ " files uploaded")] ∧
      c.Writer.status = 200 ∧ c.Writer.written = true ∧
      c.Writer.body = toString files.length ++ " files uploaded" ∧
      c.fs = UploadMultiple.written files fs := by
  obtain ⟨n, rfl⟩ := Nat.exists_eq_add_of_le' hf
  have hloop : ∀ c : Context, c.saveCalls = 0 →
      UploadMultiple.saveLoop env files c = (UploadMultiple.savedAll files c, false) := by
    intro c hc
    have := saveLoop_passes env files [] c (by
      intro i f hi
      simpa [hc, UploadMultiple.dstOf] using hok i f hi)
    simpa [UploadMultiple.saveLoop] using this
  obtain ⟨c, hs, hw, hfs, ht⟩ := handle_ok env req (UploadMultiple.uploadHandler env req) n fs
    ((UploadMultiple.savedAll files ((entryContext env fs).log .multipartForm)).RenderString
      200 (toString files.length ++ " files uploaded"))
    (fun next => by
      simp [UploadMultiple.uploadHandler, Context.MultipartForm, hform, herr,
        UploadMultiple.saveAll, hfiles, hloop _ (show ((entryContext env fs).log
          .multipartForm).saveCalls = 0 from rfl)])
    (by simp [UploadMultiple.savedAll, entryContext, Context.log, Context.RenderString,
          Context.Render, bodyAllowedForStatus])
  refine ⟨c, by simp [UploadMultiple.serve, hm, hp, UploadMultiple.chain, hs], ?_⟩
  simp [hw, hfs, ht, UploadMultiple.savedAll, entryContext, Context.log, Context.RenderString,
    Context.Render, bodyAllowedForStatus, writeContentType, ResponseWriter.WriteHeader,
    ResponseWriter.WriteHeaderNow, ResponseWriter.Write, headerGet, headerSet, defaultStatus,
    epilogue, saves_append, renders_append, saves_map_save, renders_map_save, saves_cons,
    renders_cons, saves_nil, renders_nil]
  simp [UploadMultiple.dstOf]

/-- The save loop stops at the first file whose save fails. -/
theorem saveLoop_fail (env : Env) (pre post : List FileHeader) (bad : FileHeader)
    (x : SaveFailure) (c : Context)
    (hok : ∀ i f, pre[i]? = some f → env.saveErr (c.saveCalls + i) (UploadMultiple.dstOf f) = none)
    (hfail : env.saveErr (c.saveCalls + pre.length) (UploadMultiple.dstOf bad) = some x) :
    UploadMultiple.saveLoop env (pre ++ bad :: post) c =
      ((UploadMultiple.saveFailed bad x (UploadMultiple.savedAll pre c)).RenderString 400
        ("save file err: " ++ x.msg), true) := by
  rw [saveLoop_passes env pre (bad :: post) c hok]
  have h : env.saveErr (UploadMultiple.savedAll pre c).saveCalls ("./uploads/" ++ bad.Filename)
      = some x := by
    simpa [UploadMultiple.savedAll, UploadMultiple.dstOf] using hfail
  simp [UploadMultiple.saveLoop, Context.SaveUploadedFile, h, UploadMultiple.saveFailed,
    UploadMultiple.dstOf]

theorem lookup_filter_ne (fs : List (String × List UInt8)) (p dst : String) (h : p ≠ dst) :
    (fs.filter (fun kv => kv.1 != dst)).lookup p = fs.lookup p := by
  induction fs with
  | nil => rfl
  | cons kv fs ih =>
    obtain ⟨k, v⟩ := kv
    by_cases hk : k = dst
    · subst hk
      have hpk : (p == k) = false := by simpa using h
      simp [List.filter, List.lookup, hpk, ih]
    · have hk2 : (k != dst) = true := by simpa using hk
      simp only [List.filter, hk2, List.lookup]
      split <;> simp_all

/-- A write makes its destination present and leaves every other path alone. -/
theorem lookup_fsWrite (fs : List (String × List UInt8)) (p dst : String) (d : List UInt8) :
    (fsWrite fs dst d).lookup p = if p = dst then some d else fs.lookup p := by
  by_cases h : p = dst
  · subst h
    simp [fsWrite, List.lookup]
  · have hpk : (p == dst) = false := by simpa using h
    simp [fsWrite, List.lookup, hpk, h, lookup_filter_ne fs p dst h]

/-- Later writes never make a path disappear. -/
theorem written_keeps (files : List FileHeader) (fs : List (String × List UInt8)) (p : String)
    (h : (fs.lookup p).isSome = true) :
    ((UploadMultiple.written files fs).lookup p).isSome = true := by
  induction files generalizing fs with
  | nil => simpa [UploadMultiple.written] using h
  | cons f files ih =>
    simp only [UploadMultiple.written, List.foldl_cons]
    apply ih
    rw [lookup_fsWrite]
    split <;> simp [h]

/-- Every file written is present afterwards. -/
theorem written_present (files : List FileHeader) (fs : List (String × List UInt8))
    (f : FileHeader) (hf : f ∈ files) :
    ((UploadMultiple.written files fs).lookup (UploadMultiple.dstOf f)).isSome = true := by
  induction files generalizing fs with
  | nil => simp at hf
  | cons g files ih =>
    simp only [UploadMultiple.written, List.foldl_cons]
    rcases List.mem_cons.mp hf with rfl | hmem
    · apply written_keeps
      simp [lookup_fsWrite]
    · exact ih _ hmem

/-- C2: when the form parsed and the save of the file at index k is the first
to fail, with error x, then, given fuel for the four steps of the chain: the
response is status 400 with body "save file err: " followed by x's message;
the saves attempted are those of indexes 0 to k, in order, and no other; the
only response rendered is that 400 (no 200); and every file below k is still
present under "./uploads/", the disk holding exactly the k writes made before
the failure plus whatever the failed call left at its own destination. -/
theorem first_failing_save_stops (env : Env) (req : Request) (fuel : Nat)
    (fs : List (String × List UInt8)) (form : Form) (files : List FileHeader) (k : Nat)
    (x : SaveFailure)
    (hm : req.Method = "POST") (hp : req.Path = "/upload") (hf : 4 ≤ fuel)
    (hform : req.MultipartForm = some form) (herr : req.parseErr = none)
    (hfiles : (form.File.lookup "files").getD [] = files)
    (hk : k < files.length)
    (hok : ∀ i f, i < k → files[i]? = some f →
      env.saveErr i ("./uploads/" ++ f.Filename) = none)
    (hfail : env.saveErr k ("./uploads/" ++ files[k].Filename) = some x) :
    ∃ c, UploadMultiple.serve env req fuel fs = some (.ok c) ∧
      c.Writer.status = 400 ∧ c.Writer.written = true ∧
      c.Writer.body = "save file err: " ++ x.msg ∧
      saves c.trace =
        (files.take k).map (fun f => (f, "./uploads/" ++ f.Filename, none)) ++
          [(files[k], "./uploads/" ++ files[k].Filename, some x.msg)] ∧
      (saves c.trace).length = k + 1 ∧
      renders c.trace = [(400, "save file err: " ++ x.msg)] ∧
      (∀ i f, i < k → files[i]? = some f →
        (c.fs.lookup ("./uploads/" ++ f.Filename)).isSome = true) ∧
      c.fs = (match x.left with
        | some data =>
          fsWrite (UploadMultiple.written (files.take k) fs) ("./uploads/" ++ files[k].Filename) data
        | none => UploadMultiple.written (files.take k) fs) := by
  obtain ⟨n, rfl⟩ := Nat.exists_eq_add_of_le' hf
  have hsplit : files = files.take k ++ files[k] :: files.drop (k + 1) := by
    rw [← List.drop_eq_getElem_cons hk, List.take_append_drop]
  have hlen : (files.take k).length = k := by
    simp [List.length_take, Nat.le_of_lt hk]
  have hloop : ∀ c : Context, c.saveCalls = 0 →
      UploadMultiple.saveLoop env files c =
        ((UploadMultiple.saveFailed files[k] x
          (UploadMultiple.savedAll (files.take k) c)).RenderString 400
            ("save file err: " ++ x.msg), true) := by
    intro c hc
    have := saveLoop_fail env (files.take k) (files.drop (k + 1)) files[k] x c
      (by
        intro i f hi
        rw [List.getElem?_take] at hi
        split at hi
        · rename_i hik
          simpa [hc, UploadMultiple.dstOf] using hok i f hik hi
        · simp at hi)
      (by simpa [hc, hlen, UploadMultiple.dstOf] using hfail)
    rwa [← hsplit] at this
  obtain ⟨c, hs, hw, hfs, ht⟩ := handle_ok env req (UploadMultiple.uploadHandler env req) n fs
    ((UploadMultiple.saveFailed files[k] x
      (UploadMultiple.savedAll (files.take k) ((entryContext env fs).log .multipartForm))).RenderString
        400 ("save file err: " ++ x.msg))
    (fun next => by
      simp [UploadMultiple.uploadHandler, Context.MultipartForm, hform, herr,
        UploadMultiple.saveAll, hfiles, hloop _ (show ((entryContext env fs).log
          .multipartForm).saveCalls = 0 from rfl)])
    (by simp [UploadMultiple.savedAll, UploadMultiple.saveFailed, entryContext, Context.log,
          Context.RenderString, Context.Render, bodyAllowedForStatus])
  have hfs2 : c.fs = (match x.left with
        | some data =>
          fsWrite (UploadMultiple.written (files.take k) fs) ("./uploads/" ++ files[k].Filename) data
        | none => UploadMultiple.written (files.take k) fs) := by
    simp [hfs, UploadMultiple.savedAll, UploadMultiple.saveFailed, entryContext, Context.log,
      Context.RenderString, Context.Render, bodyAllowedForStatus, UploadMultiple.dstOf]
  have hsaves : saves c.trace =
        (files.take k).map (fun f => (f, "./uploads/" ++ f.Filename, none)) ++
          [(files[k], "./uploads/" ++ files[k].Filename, some x.msg)] := by
    simp [ht, UploadMultiple.savedAll, UploadMultiple.saveFailed, entryContext, Context.log,
      Context.RenderString, Context.Render, bodyAllowedForStatus, epilogue, saves_append,
      saves_map_save, saves_cons, saves_nil, -List.map_take]
    simp [UploadMultiple.dstOf, -List.map_take]
  refine ⟨c, by simp [UploadMultiple.serve, hm, hp, UploadMultiple.chain, hs], ?_, ?_, ?_,
    hsaves, ?_, ?_, ?_, hfs2⟩
  · simp [hw, UploadMultiple.savedAll, UploadMultiple.saveFailed, entryContext, Context.log,
      Context.RenderString, Context.Render, bodyAllowedForStatus, writeContentType,
      ResponseWriter.WriteHeader, ResponseWriter.WriteHeaderNow, ResponseWriter.Write,
      headerGet, headerSet, defaultStatus]
  · simp [hw, UploadMultiple.savedAll, UploadMultiple.saveFailed, entryContext, Context.log,
      Context.RenderString, Context.Render, bodyAllowedForStatus, writeContentType,
      ResponseWriter.WriteHeader, ResponseWriter.WriteHeaderNow, ResponseWriter.Write,
      headerGet, headerSet, defaultStatus]
  · simp [hw, UploadMultiple.savedAll, UploadMultiple.saveFailed, entryContext, Context.log,
      Context.RenderString, Context.Render, bodyAllowedForStatus, writeContentType,
      ResponseWriter.WriteHeader, ResponseWriter.WriteHeaderNow, ResponseWriter.Write,
      headerGet, headerSet, defaultStatus]
  · simp [hsaves, Nat.le_of_lt hk]
  · simp [ht, UploadMultiple.savedAll, UploadMultiple.saveFailed, entryContext, Context.log,
      Context.RenderString, Context.Render, bodyAllowedForStatus, epilogue, renders_append,
      renders_map_save, renders_cons, renders_nil, -List.map_take]
  · intro i f hik hif
    have hmem : f ∈ files.take k := by
      rw [List.mem_iff_getElem?]
      exact ⟨i, by rw [List.getElem?_take]; simp [hik, hif]⟩
    have hpres := written_present (files.take k) fs f hmem
    rw [hfs2]
    cases x.left with
    | none => simpa [UploadMultiple.dstOf] using hpres
    | some data =>
      simp only [lookup_fsWrite]
      split
      · rfl
      · simpa [UploadMultiple.dstOf] using hpres

theorem first_failing_save_stops_witness :
    postThreeFiles.Method = "POST" ∧ postThreeFiles.Path = "/upload" ∧ 4 ≤ 4 ∧
    postThreeFiles.MultipartForm = some ⟨[("files", [fileA, fileB, fileC])]⟩ ∧
    postThreeFiles.parseErr = none ∧
    (∀ i f, i < 1 → [fileA, fileB, fileC][i]? = some f →
      secondSaveFails.saveErr i ("./uploads/" ++ f.Filename) = none) ∧
    secondSaveFails.saveErr 1 ("./uploads/" ++ fileB.Filename) = some ⟨"disk full", none⟩ ∧
    ∃ c, UploadMultiple.serve secondSaveFails postThreeFiles 4 [] = some (.ok c) ∧
      c.Writer.status = 400 ∧ c.Writer.body = "save file err: disk full" ∧
      saves c.trace = [(fileA, "./uploads/a.txt", none), (fileB, "./uploads/b.txt", some "disk full")] ∧
      renders c.trace = [(400, "save file err: disk full")] ∧
      c.fs = [("./uploads/a.txt", fileA.content)] :=
  have hok : ∀ i f, i < 1 → [fileA, fileB, fileC][i]? = some f →
      secondSaveFails.saveErr i ("./uploads/" ++ f.Filename) = none := by
    intro i f hi _
    have h0 : i = 0 := by omega
    subst h0
    rfl
  have ⟨c, hs, hst, _, hb, hsv, _, hr, _, hfs⟩ :=
    first_failing_save_stops secondSaveFails postThreeFiles 4 []
      ⟨[("files", [fileA, fileB, fileC])]⟩ [fileA, fileB, fileC] 1 ⟨"disk full", none⟩
      rfl rfl (le_refl 4) rfl rfl rfl (by decide) hok rfl
  ⟨rfl, rfl, le_refl 4, rfl, rfl, hok, rfl, c, hs, hst, hb, hsv, hr, hfs⟩

theorem all_saved_reports_count_witness :
    postThreeFiles.Method = "POST" ∧ postThreeFiles.Path = "/upload" ∧ 4 ≤ 4 ∧
    postThreeFiles.MultipartForm = some ⟨[("files", [fileA, fileB, fileC])]⟩ ∧
    postThreeFiles.parseErr = none ∧
    (∀ i f, [fileA, fileB, fileC][i]? = some f →
      quietEnv.saveErr i ("./uploads/" ++ f.Filename) = none) ∧
    ∃ c, UploadMultiple.serve quietEnv postThreeFiles 4 [] = some (.ok c) ∧
      saves c.trace = [(fileA, "./uploads/a.txt", none), (fileB, "./uploads/b.txt", none),
        (fileC, "./uploads/c.txt", none)] ∧
      renders c.trace = [(200, "3 files uploaded")] ∧
      c.Writer.status = 200 ∧ c.Writer.body = "3 files uploaded" :=
  have ⟨c, hs, hsv, hr, hst, _, hb, _⟩ :=
    all_saved_reports_count quietEnv postThreeFiles 4 []
      ⟨[("files", [fileA, fileB, fileC])]⟩ [fileA, fileB, fileC]
      rfl rfl (le_refl 4) rfl rfl rfl (fun _ _ _ => rfl)
  ⟨rfl, rfl, le_refl 4, rfl, rfl, fun _ _ _ => rfl, c, hs, hsv, hr, hst, hb⟩

/-- Rendering on a writer whose header is already out: the status stays, the
body grows by what is rendered. -/
theorem render_after_written (c : Context) (code : Int) (body : String)
    (hw : c.Writer.written = true) (hb : bodyAllowedForStatus code = true) :
    (c.RenderString code body).index = c.index ∧
    (c.RenderString code body).Writer.status = c.Writer.status ∧
    (c.RenderString code body).Writer.written = true ∧
    (c.RenderString code body).Writer.body = c.Writer.body ++ body ∧
    renders (c.RenderString code body).trace = renders c.trace ++ [(code, body)] ∧
    saves (c.RenderString code body).trace = saves c.trace := by
  have h1 : (c.Writer.WriteHeader code) = c.Writer := by
    unfold ResponseWriter.WriteHeader
    split
    · simp [hw]
    · rfl
  simp only [Context.RenderString, Context.Render, Context.log, hb, if_true, h1]
  refine ⟨trivial, ?_, ?_, ?_, ?_, ?_⟩
  · unfold writeContentType
    split <;> simp [ResponseWriter.Write, ResponseWriter.WriteHeaderNow, hw]
  · unfold writeContentType
    split <;> simp [ResponseWriter.Write, ResponseWriter.WriteHeaderNow, hw]
  · unfold writeContentType
    split <;> simp [ResponseWriter.Write, ResponseWriter.WriteHeaderNow, hw]
  · simp [renders_append, renders_cons, renders_nil]
  · simp [saves_append, saves_cons, saves_nil]

/-- The save loop, started after a response has gone out: it renders nothing
unless a save fails, and then renders exactly one "save file err" response. -/
theorem saveLoop_after_response (env : Env) (files : List FileHeader) (c : Context)
    (hw : c.Writer.written = true) :
    (UploadMultiple.saveLoop env files c).1.index = c.index ∧
    (UploadMultiple.saveLoop env files c).1.Writer.status = c.Writer.status ∧
    (UploadMultiple.saveLoop env files c).1.Writer.written = true ∧
    (((UploadMultiple.saveLoop env files c).2 = false ∧
      (UploadMultiple.saveLoop env files c).1.Writer.body = c.Writer.body ∧
      renders (UploadMultiple.saveLoop env files c).1.trace = renders c.trace) ∨
     ((UploadMultiple.saveLoop env files c).2 = true ∧ ∃ msg,
      (UploadMultiple.saveLoop env files c).1.Writer.body =
        c.Writer.body ++ ("save file err: " ++ msg) ∧
      renders (UploadMultiple.saveLoop env files c).1.trace =
        renders c.trace ++ [(400, "save file err: " ++ msg)])) := by
  induction files generalizing c with
  | nil => simp [UploadMultiple.saveLoop, hw]
  | cons f files ih =>
    cases hsv : env.saveErr c.saveCalls ("./uploads/" ++ f.Filename) with
    | some x =>
      simp only [UploadMultiple.saveLoop, Context.SaveUploadedFile, hsv]
      obtain ⟨h1, h2, h3, h4, h5, -⟩ := render_after_written
        { c with saveCalls := c.saveCalls + 1,
                 trace := c.trace ++ [.save f ("./uploads/" ++ f.Filename) (some x.msg)],
                 fs := match x.left with
                       | some data => fsWrite c.fs ("./uploads/" ++ f.Filename) data
                       | none => c.fs }
        400 ("save file err: " ++ x.msg) hw rfl
      refine ⟨h1, h2, h3, Or.inr ⟨trivial, x.msg, h4, ?_⟩⟩
      rw [h5]
      simp [renders_append, renders_cons, renders_nil]
    | none =>
      simp only [UploadMultiple.saveLoop, Context.SaveUploadedFile, hsv]
      have := ih { c with saveCalls := c.saveCalls + 1,
                          trace := c.trace ++ [.save f ("./uploads/" ++ f.Filename) none],
                          fs := fsWrite c.fs ("./uploads/" ++ f.Filename) f.content } hw
      simpa [renders_append, renders_cons, renders_nil] using this

/-- The context right after the error branch of the multi-upload handler. -/
theorem after_form_error (env : Env) (fs : List (String × List UInt8)) (body : String) :
    (((entryContext env fs).log .multipartForm).RenderString 400 body).Writer =
      ⟨400, true, [("Content-Type", "text/plain; charset=utf-8")], body⟩ ∧
    (((entryContext env fs).log .multipartForm).RenderString 400 body).index = 2 ∧
    renders (((entryContext env fs).log .multipartForm).RenderString 400 body).trace =
      [(400, body)] ∧
    saves (((entryContext env fs).log .multipartForm).RenderString 400 body).trace = [] ∧
    (((entryContext env fs).log .multipartForm).RenderString 400 body).fs = fs := by
  simp [entryContext, Context.log, Context.RenderString, Context.Render, bodyAllowedForStatus,
    writeContentType, ResponseWriter.WriteHeader, ResponseWriter.WriteHeaderNow,
    ResponseWriter.Write, headerGet, headerSet, defaultStatus, renders_cons, renders_nil,
    saves_cons, saves_nil]

/-- C7: for every multipart-form parse error e, the handler renders status 400
with body "get form err: " followed by e's message (on a fresh writer that
is the whole response so far) and then does not return: it goes on into lines
19 to 27 with whatever form the parse left.  Given fuel for the four steps of
the chain, the final status is 400 and that response is the first one
rendered.  If the parse left no form, reading `form.File` panics, `Recovery`
catches it and the body stays as it was; if it left a form, the save loop runs
and one more response is rendered after the first, its body appended. -/
theorem parse_error_falls_through (env : Env) (req : Request) (fuel : Nat)
    (fs : List (String × List UInt8)) (e : String)
    (hm : req.Method = "POST") (hp : req.Path = "/upload") (hf : 4 ≤ fuel)
    (herr : req.parseErr = some e) :
    (∀ next c, UploadMultiple.uploadHandler env req next c =
      UploadMultiple.saveAll env req.MultipartForm
        ((c.log .multipartForm).RenderString 400 ("get form err: " ++ e))) ∧
    (((entryContext env fs).log .multipartForm).RenderString 400 ("get form err: " ++ e)).Writer =
      ⟨400, true, [("Content-Type", "text/plain; charset=utf-8")], "get form err: " ++ e⟩ ∧
    ∃ c, UploadMultiple.serve env req fuel fs = some (.ok c) ∧
      c.Writer.status = 400 ∧ c.Writer.written = true ∧
      (renders c.trace).head? = some (400, "get form err: " ++ e) ∧
      (req.MultipartForm = none →
        c.Writer.body = "get form err: " ++ e ∧
        renders c.trace = [(400, "get form err: " ++ e)] ∧
        Event.recovered nilDereference ∈ c.trace ∧ saves c.trace = []) ∧
      (∀ form, req.MultipartForm = some form → ∃ code more,
        renders c.trace = [(400, "get form err: " ++ e), (code, more)] ∧
        c.Writer.body = "get form err: " ++ e ++ more) := by
  have hh : ∀ next c, UploadMultiple.uploadHandler env req next c =
      UploadMultiple.saveAll env req.MultipartForm
        ((c.log .multipartForm).RenderString 400 ("get form err: " ++ e)) := by
    intro next c
    simp [UploadMultiple.uploadHandler, Context.MultipartForm, herr]
  obtain ⟨a1, a2, a3, a4, -⟩ := after_form_error env fs ("get form err: " ++ e)
  refine ⟨hh, a1, ?_⟩
  obtain ⟨n, rfl⟩ := Nat.exists_eq_add_of_le' hf
  have hserve : UploadMultiple.serve env req (n + 4) fs =
      some (handle [Logger env req, Recovery, UploadMultiple.uploadHandler env req] (n + 4) fs) := by
    simp [UploadMultiple.serve, hm, hp, UploadMultiple.chain]
  cases hform : req.MultipartForm with
  | none =>
    obtain ⟨c, hs, hw, -, ht⟩ := handle_panic env req (UploadMultiple.uploadHandler env req) n fs
      nilDereference
      (((entryContext env fs).log .multipartForm).RenderString 400 ("get form err: " ++ e))
      (fun next => by rw [hh, hform]; rfl)
    have hw2 : c.Writer =
        ⟨400, true, [("Content-Type", "text/plain; charset=utf-8")], "get form err: " ++ e⟩ := by
      rw [hw, a1]
      simp [ResponseWriter.WriteHeader, ResponseWriter.WriteHeaderNow]
    have hr : renders c.trace = [(400, "get form err: " ++ e)] := by
      rw [ht, renders_append, a3]
      simp [epilogue, renders_cons, renders_nil]
    refine ⟨c, by rw [hserve, hs], by rw [hw2], by rw [hw2], by rw [hr]; rfl, ?_, ?_⟩
    · intro _
      refine ⟨by rw [hw2], hr, by rw [ht]; simp, ?_⟩
      rw [ht, saves_append, a4]
      simp [epilogue, saves_cons, saves_nil]
    · intro form hcontra
      cases hcontra
  | some form =>
    have hwr : (((entryContext env fs).log .multipartForm).RenderString 400
        ("get form err: " ++ e)).Writer.written = true := by rw [a1]
    obtain ⟨l1, l2, l3, l4⟩ := saveLoop_after_response env ((form.File.lookup "files").getD [])
      (((entryContext env fs).log .multipartForm).RenderString 400 ("get form err: " ++ e)) hwr
    rw [a2] at l1
    rw [a1] at l2
    rcases l4 with ⟨lf, lb, lr⟩ | ⟨lf, msg, lb, lr⟩
    · obtain ⟨r1, r2, r3, r4, r5, -⟩ := render_after_written
        (UploadMultiple.saveLoop env ((form.File.lookup "files").getD [])
          (((entryContext env fs).log .multipartForm).RenderString 400 ("get form err: " ++ e))).1
        200 (toString ((form.File.lookup "files").getD []).length ++ " files uploaded") l3 rfl
      obtain ⟨c, hs, hw, -, ht⟩ := handle_ok env req (UploadMultiple.uploadHandler env req) n fs
        ((UploadMultiple.saveLoop env ((form.File.lookup "files").getD [])
          (((entryContext env fs).log .multipartForm).RenderString 400
            ("get form err: " ++ e))).1.RenderString
          200 (toString ((form.File.lookup "files").getD []).length ++ " files uploaded"))
        (fun next => by
          rw [hh, hform]
          simp only [UploadMultiple.saveAll]
          split
          · rename_i heq
            rw [heq] at lf
            simp at lf
          · rename_i heq
            rw [heq])
        (by rw [r1, l1])
      have hr : renders c.trace = [(400, "get form err: " ++ e),
          (200, toString ((form.File.lookup "files").getD []).length ++ " files uploaded")] := by
        rw [ht, renders_append, r5, lr, a3]
        simp [epilogue, renders_cons, renders_nil]
      refine ⟨c, by rw [hserve, hs], ?_, ?_, by rw [hr]; rfl, ?_, ?_⟩
      · rw [hw]; simp [ResponseWriter.WriteHeaderNow, r3, r2, l2]
      · rw [hw]; simp [ResponseWriter.WriteHeaderNow, r3]
      · intro hcontra
        cases hcontra
      · intro form2 _
        refine ⟨_, _, hr, ?_⟩
        rw [hw]
        simp [ResponseWriter.WriteHeaderNow, r3, r4, lb, a1]
    · obtain ⟨c, hs, hw, -, ht⟩ := handle_ok env req (UploadMultiple.uploadHandler env req) n fs
        (UploadMultiple.saveLoop env ((form.File.lookup "files").getD [])
          (((entryContext env fs).log .multipartForm).RenderString 400
            ("get form err: " ++ e))).1
        (fun next => by
          rw [hh, hform]
          simp only [UploadMultiple.saveAll]
          split
          · rename_i heq
            rw [heq]
          · rename_i heq
            rw [heq] at lf
            simp at lf)
        l1
      have hr : renders c.trace = [(400, "get form err: " ++ e),
          (400, "save file err: " ++ msg)] := by
        rw [ht, renders_append, lr, a3]
        simp [epilogue, renders_cons, renders_nil]
      refine ⟨c, by rw [hserve, hs], ?_, ?_, by rw [hr]; rfl, ?_, ?_⟩
      · rw [hw]; simp [ResponseWriter.WriteHeaderNow, l3, l2]
      · rw [hw]; simp [ResponseWriter.WriteHeaderNow, l3]
      · intro hcontra
        cases hcontra
      · intro form2 _
        refine ⟨_, _, hr, ?_⟩
        rw [hw]
        simp [ResponseWriter.WriteHeaderNow, l3, lb, a1]

theorem parse_error_falls_through_witness :
    postNotMultipart.Method = "POST" ∧ postNotMultipart.Path = "/upload" ∧ 4 ≤ 4 ∧
    postNotMultipart.parseErr = some "request Content-Type isn\x27t multipart/form-data" ∧
    (∀ next c, UploadMultiple.uploadHandler quietEnv postNotMultipart next c =
      UploadMultiple.saveAll quietEnv postNotMultipart.MultipartForm
        ((c.log .multipartForm).RenderString 400
          ("get form err: " ++ "request Content-Type isn\x27t multipart/form-data"))) ∧
    ∃ c, UploadMultiple.serve quietEnv postNotMultipart 4 [] = some (.ok c) ∧
      c.Writer.status = 400 ∧
      c.Writer.body = "get form err: request Content-Type isn\x27t multipart/form-data" ∧
      Event.recovered nilDereference ∈ c.trace :=
  have ⟨hh, _, c, hs, hst, _, _, hnone, _⟩ :=
    parse_error_falls_through quietEnv postNotMultipart 4 [] _ rfl rfl (le_refl 4) rfl
  ⟨rfl, rfl, le_refl 4, rfl, hh, c, hs, hst, (hnone rfl).1, (hnone rfl).2.2.1⟩

/-- The fall-through at work when the parse left both a form and an error: the
file is saved and a second response is rendered; the status stays 400 and the
second body is appended to the first. -/
theorem parse_error_with_form_example :
    (writerOf (UploadMultiple.serve quietEnv postBadQuery 4 [])).map
        (fun w => (w.status, w.body)) =
      some (400, "get form err: invalid URL escape \"%zz\"1 files uploaded") ∧
    renders (traceOf (UploadMultiple.serve quietEnv postBadQuery 4 [])) =
      [(400, "get form err: invalid URL escape \"%zz\""), (200, "1 files uploaded")] ∧
    saves (traceOf (UploadMultiple.serve quietEnv postBadQuery 4 [])) =
      [(fileA, "./uploads/a.txt", none)] := by
  refine ⟨?_, ?_, ?_⟩ <;> rfl

/-! ### Validator demo -/

/-- The tag string of the program splits into its two rules. -/
theorem splitTags_required_email :
    Validator.splitTags "required,email".data [] = ["required", "email"] := by
  rfl

/-- The print loop appends one "Error: " line per error, in order. -/
theorem printErrors_eq (errs : List Validator.FieldError) (out : String) :
    Validator.printErrors errs out =
      out ++ String.join (errs.map (fun e => "Error: " ++ e.Error ++ "\n")) := by
  induction errs generalizing out with
  | nil =>
    apply String.ext
    simp [Validator.printErrors, String.join_eq]
  | cons e errs ih =>
    rw [Validator.printErrors, ih]
    apply String.ext
    simp [String.join_eq, List.append_assoc]

/-- What `Var` returns for the rule "required,email", by cases on the subject. -/
theorem var_required_email (isEmail : String → Bool) (subject : String) :
    Validator.Var isEmail subject "required,email" =
      .ok (if subject = "" then some [⟨"", "", "required"⟩]
           else if isEmail subject then none else some [⟨"", "", "email"⟩]) := by
  have h1 : ¬ ("required,email" = "" ∨ "required,email" = "-") := by decide
  have hr : Validator.bakedIn isEmail "required" = some (fun s => s != "") := by
    simp [Validator.bakedIn]
  have he : Validator.bakedIn isEmail "email" = some isEmail := by
    simp [Validator.bakedIn]
  simp only [Validator.Var, h1, if_false, splitTags_required_email, Validator.traverseField, hr, he]
  by_cases hs : subject = ""
  · simp [hs, hr]
  · by_cases hm : isEmail subject = true
    · simp [hs, hm, hr, he]
    · simp [hs, hm, hr, he]

/-- Output for a non-nil `err` is never the "Validation passed" line. -/
theorem report_some_ne_passed (errs : List Validator.FieldError) :
    Validator.report (some errs) ≠ "Validation passed\n" := by
  intro h
  have hd := congrArg String.data h
  cases errs with
  | nil => simp [Validator.report, Validator.printErrors] at hd
  | cons e errs =>
    rw [Validator.report, printErrors_eq] at hd
    simp [String.join_eq] at hd

/-- C9: for every subject validated against "required,email", `Var` returns
either nil, and the output is exactly the line "Validation passed", or a
non-empty list of violations, and the output is exactly one "Error: " line
per violation, in order; for any list of violations the output is those lines
and never the "Validation passed" line.  For "admin#admin.com" the result is
the single violation of the `email` rule (none of `required`) and the output
is its one Error line.  The e-mail pattern is a parameter, of which only this
is used: what it accepts holds an `@`. -/
theorem validator_output (isEmail : String → Bool)
    (hat : ∀ s, isEmail s = true → '@' ∈ s.data) :
    (∀ subject, ∃ r, Validator.Var isEmail subject "required,email" = .ok r ∧
      ((r = none ∧ Validator.report r = "Validation passed\n") ∨
       (∃ errs, r = some errs ∧ errs ≠ [] ∧
          Validator.report r =
            String.join (errs.map (fun e => "Error: " ++ e.Error ++ "\n"))))) ∧
    (∀ errs, Validator.report (some errs) =
        String.join (errs.map (fun e => "Error: " ++ e.Error ++ "\n")) ∧
      Validator.report (some errs) ≠ "Validation passed\n") ∧
    Validator.Var isEmail "admin#admin.com" "required,email" =
      .ok (some [⟨"", "", "email"⟩]) ∧
    Validator.main isEmail =
      some "Error: Key: \x27\x27 Error:Field validation for \x27\x27 failed on the \x27email\x27 tag\n" := by
  have hrep : ∀ errs, Validator.report (some errs) =
      String.join (errs.map (fun e => "Error: " ++ e.Error ++ "\n")) := by
    intro errs
    rw [Validator.report, printErrors_eq]
    apply String.ext
    simp
  have hno : isEmail "admin#admin.com" = false := by
    cases h : isEmail "admin#admin.com" with
    | false => rfl
    | true => exact absurd (hat _ h) (by decide)
  have hvar : Validator.Var isEmail "admin#admin.com" "required,email" =
      .ok (some [⟨"", "", "email"⟩]) := by
    rw [var_required_email]
    have hne : ¬ ("admin#admin.com" = "") := by decide
    simp [hne, hno]
  refine ⟨?_, fun errs => ⟨hrep errs, report_some_ne_passed errs⟩, hvar, ?_⟩
  · intro subject
    refine ⟨_, var_required_email isEmail subject, ?_⟩
    by_cases hs : subject = ""
    · right
      exact ⟨[⟨"", "", "required"⟩], by simp [hs], by simp, by simp [hs, hrep]⟩
    · by_cases hm : isEmail subject = true
      · left
        simp [hs, hm, Validator.report]
      · right
        exact ⟨[⟨"", "", "email"⟩], by simp [hs, hm], by simp, by simp [hs, hm, hrep]⟩
  · simp only [Validator.main, hvar]
    rfl

theorem validator_output_witness :
    (∀ s, holdsAt s = true → '@' ∈ s.data) ∧
    Validator.Var holdsAt "admin#admin.com" "required,email" =
      .ok (some [⟨"", "", "email"⟩]) ∧
    Validator.main holdsAt =
      some "Error: Key: \x27\x27 Error:Field validation for \x27\x27 failed on the \x27email\x27 tag\n" :=
  have hat : ∀ s, holdsAt s = true → '@' ∈ s.data := by
    intro s h
    simpa [holdsAt] using h
  ⟨hat, (validator_output holdsAt hat).2.2.1, (validator_output holdsAt hat).2.2.2⟩

end EasyGin
